import Mathlib

/-
Shallow embedding of `src/main.rs` of the timeline_check repository.

The program reads a hosts file line by line (lazily, via `BufRead::lines`),
probes each host over a fresh connection pool, and prints one row per
successfully probed host.  Per-host connection failure prints two diagnostic
lines and skips the host; a failing status query is `unwrap`ped and aborts
the whole process.  We model the external world (connection outcomes and
query answers) as a function from host name to an outcome, stdout as a list
of structured lines, and the whole run as a trace of events (connection
attempts and printed lines) ending either normally or in a panic.
-/

deriving instance DecidableEq for Except

namespace TimelineCheck

/-- The `Host` struct of `src/main.rs` (the spec calls it HostStatus):
name, `is_primary`, `timeline_id` (an i32 reported by the server) and
`replica_attached`. -/
structure Host where
  name : String
  is_primary : Bool
  timeline_id : Int
  replica_attached : Bool
deriving DecidableEq, Repr

/-- Outcome of the outside world for one host: either connection
establishment fails with an error text, or it succeeds and the three
status queries each either answer or fail.  `recovery` is the raw value
of `SELECT pg_is_in_recovery()`, `timeline` of
`SELECT timeline_id from pg_control_checkpoint()`, `replica` of
`SELECT EXISTS (select 1 from pg_stat_replication)`. -/
inductive ConnOutcome where
  | connFail (err : String)
  | connOk (recovery : Except String Bool) (timeline : Except String Int)
      (replica : Except String Bool)
deriving DecidableEq

/-- An environment fixes, for every host name, what the network and the
server at that name answer during this run. -/
abbrev Env := String → ConnOutcome

/-- One line printed to stdout.  `connErrHeader` is
`println!("Error connecting to host: \x7b\x7d", host)`, `connErrDetail` the
following `println!("\x7b\x7d", e)`, and `row` the final
`println!("\x7b\x7d, \x7b\x7d, \x7b\x7d, \x7b\x7d", ...)` for one collected `Host`. -/
inductive OutLine where
  | connErrHeader (host : String)
  | connErrDetail (err : String)
  | row (name : String) (is_primary : Bool) (timeline_id : Int)
      (replica_attached : Bool)
deriving DecidableEq, Repr

/-- Rust `Display` of a `bool`. -/
def boolStr (b : Bool) : String := if b then "true" else "false"

/-- The text of a printed line, following the format strings in the source. -/
def render : OutLine → String
  | .connErrHeader h => "Error connecting to host: " ++ h
  | .connErrDetail e => e
  | .row n p t r => n ++ ", " ++ boolStr p ++ ", " ++ toString t ++ ", " ++ boolStr r

/-- Observable events of a run: an attempt to open a connection to a host
(`PgPoolOptions::connect_with`), or a line printed to stdout. -/
inductive Event where
  | connAttempt (host : String)
  | line (l : OutLine)
deriving DecidableEq, Repr

/-- The three ways the process can abort: `panic!("Error reading file: ...")`
on a failed `File::open`, the `l.unwrap()` on a line that cannot be decoded,
and the `.unwrap()` on a failed status query. -/
inductive Panic where
  | fileOpen (err : String)
  | lineDecode (err : String)
  | queryFail (err : String)
deriving DecidableEq, Repr

/-- Result of the loop body for a single host: the events it emits, the
`Host` it pushes onto `res` (if any), and the panic it raises (if any). -/
structure StepRes where
  events : List Event
  status : Option Host
  panic : Option Panic
deriving DecidableEq

/-- One iteration of the `for host in hosts` loop.  On connection failure
two diagnostics are printed and the host is skipped (`continue`).  On
success the three query results are `unwrap`ped in field order
(`is_primary` first, then `timeline_id`, then `replica_attached`); the
first failing one panics, otherwise the `Host` is built with
`is_primary = !pg_is_in_recovery`. -/
def probeHost (env : Env) (host : String) : StepRes :=
  match env host with
  | .connFail e =>
      ⟨[.connAttempt host, .line (.connErrHeader host), .line (.connErrDetail e)],
        none, none⟩
  | .connOk recovery timeline replica =>
      match recovery.map (fun b => !b), timeline, replica with
      | .error e, _, _ => ⟨[.connAttempt host], none, some (.queryFail e)⟩
      | .ok _, .error e, _ => ⟨[.connAttempt host], none, some (.queryFail e)⟩
      | .ok _, .ok _, .error e => ⟨[.connAttempt host], none, some (.queryFail e)⟩
      | .ok p, .ok t, .ok r => ⟨[.connAttempt host], some ⟨host, p, t, r⟩, none⟩

/-- The collection loop over the items of the (lazy) line iterator.  An
`Except.error` item is a line that fails to decode: its `unwrap` panics
when the loop reaches it.  A panicking step stops the loop. -/
def collectLoop (env : Env) : List (Except String String) → List Event × List Host × Option Panic
  | [] => ([], [], none)
  | .error e :: _ => ([], [], some (.lineDecode e))
  | .ok host :: rest =>
      let s := probeHost env host
      match s.panic with
      | some p => (s.events, [], some p)
      | none =>
          let (evs, sts, p) := collectLoop env rest
          (s.events ++ evs, s.status.toList ++ sts, p)

/-- Final state of a run: the event trace, and whether the process
panicked or finished normally. -/
inductive RunResult where
  | panicked (trace : List Event) (p : Panic)
  | finished (trace : List Event)
deriving DecidableEq

/-- The row printed for one collected `Host`. -/
def rowOf (h : Host) : OutLine := .row h.name h.is_primary h.timeline_id h.replica_attached

/-- The whole of `main`, given the result of `File::open`, the items the
line iterator will yield, and the environment.  If the file opens, the
collection loop runs; if it does not panic, the collected rows are printed
after it, in order. -/
def runMain (openRes : Except String Unit) (items : List (Except String String))
    (env : Env) : RunResult :=
  match openRes with
  | .error e => .panicked [] (.fileOpen e)
  | .ok _ =>
      match collectLoop env items with
      | (evs, _, some p) => .panicked evs p
      | (evs, sts, none) => .finished (evs ++ sts.map (fun s => .line (rowOf s)))

/-- A run whose hosts file opened and decoded cleanly into `hosts`. -/
def runOnHosts (hosts : List String) (env : Env) : RunResult :=
  runMain (.ok ()) (hosts.map .ok) env

/-- The event trace of a run, panicked or not. -/
def traceOf : RunResult → List Event
  | .panicked tr _ => tr
  | .finished tr => tr

/-- The stdout lines of a trace. -/
def linesOf (tr : List Event) : List OutLine :=
  tr.filterMap fun e => match e with | .line l => some l | _ => none

/-- Whether a printed line is a result row. -/
def isRow : OutLine → Bool
  | .row _ _ _ _ => true
  | _ => false

/-- The result rows of a trace, in print order. -/
def rowsOfTrace (tr : List Event) : List OutLine := (linesOf tr).filter isRow

/-- The result rows of a run. -/
def rowsOf (r : RunResult) : List OutLine := rowsOfTrace (traceOf r)

/-- The host named by a row line, if it is one. -/
def rowName? : OutLine → Option String
  | .row n _ _ _ => some n
  | _ => none

/-- The host named by a connection-failure diagnostic header, if the line
is one. -/
def connDiagName? : OutLine → Option String
  | .connErrHeader h => some h
  | _ => none

/-- Whether a trace event is the printing of a result row. -/
def isRowEvent : Event → Bool
  | .line (.row _ _ _ _) => true
  | _ => false

/-- The hosts to which a connection was attempted, in trace order. -/
def connAttemptsOf (tr : List Event) : List String :=
  tr.filterMap fun e => match e with | .connAttempt h => some h | _ => none

/-- Events of probing a list of hosts in order (no panic assumed by the
definition itself). -/
def eventsFor (env : Env) : List String → List Event
  | [] => []
  | h :: t => (probeHost env h).events ++ eventsFor env t

/-- Strip one trailing carriage return, as `rust std` does after removing
the newline byte of a line. -/
def stripCR (cs : List Char) : List Char :=
  if cs.getLast? = some '\r' then cs.dropLast else cs

/-- The `BufRead::lines` splitter on decoded content: each `\n` ends a line
whose trailing `\r` (if any) is then stripped; a final unterminated chunk
is yielded as-is; empty content yields nothing.  `buf` is the bytes of the
current line read so far. -/
def splitLinesAux : List Char → List Char → List String
  | [], [] => []
  | [], buf => [String.mk buf]
  | c :: rest, buf =>
      if c = '\n' then String.mk (stripCR buf) :: splitLinesAux rest []
      else splitLinesAux rest (buf ++ [c])

/-- The sequence of line strings `read_lines` yields for content that
opens and decodes cleanly. -/
def rustLines (content : List Char) : List String := splitLinesAux content []

/-- A whole run on a hosts file with the given (cleanly decoding) content. -/
def runOnFile (content : List Char) (env : Env) : RunResult :=
  runMain (.ok ()) ((rustLines content).map .ok) env

/-- File content whose lines are exactly `ls`, each terminated by a
newline. -/
def encodeFile : List String → List Char
  | [] => []
  | l :: ls => l.data ++ '\n' :: encodeFile ls

/-- An environment in which every host refuses connections. -/
def allRefused : Env := fun _ => .connFail "connection refused"

/-- Whether an outcome is a connection-establishment failure. -/
def isConnFail : ConnOutcome → Bool
  | .connFail _ => true
  | _ => false

/-- An environment whose single host is a primary (not in recovery) on
timeline 7 with one replica attached. -/
def envPrimary : Env := fun _ => .connOk (.ok false) (.ok 7) (.ok true)

/-- An environment refusing its first host but with a live second host,
used to witness determinism across two distinct environments. -/
def envOther : Env := fun h =>
  if h = "db-a" then ConnOutcome.connFail "connection refused"
  else ConnOutcome.connOk (.ok true) (.ok 3) (.ok false)

/-- An environment in which every host connects but the timeline query
fails. -/
def envQueryFail : Env := fun _ =>
  .connOk (.ok false) (.error "query failed") (.ok false)

/-- The scenario of the spec: `db-a` a primary on timeline 7 with a
replica, `db-b` unreachable, `db-c` a standby on timeline 7 without
replicas. -/
def envScenario : Env := fun h =>
  if h = "db-a" then ConnOutcome.connOk (.ok false) (.ok 7) (.ok true)
  else if h = "db-c" then ConnOutcome.connOk (.ok true) (.ok 7) (.ok false)
  else ConnOutcome.connFail "connection refused"

/-- A line item of the hosts-file iterator that fails to decode as UTF-8. -/
def badLine : Except String String := .error "stream did not contain valid UTF-8"

lemma probeHost_connFail {env : Env} {h e} (he : env h = .connFail e) :
    probeHost env h =
      ⟨[.connAttempt h, .line (.connErrHeader h), .line (.connErrDetail e)],
        none, none⟩ := by
  simp [probeHost, he]

lemma probeHost_all_ok {env : Env} {h b t r}
    (he : env h = .connOk (.ok b) (.ok t) (.ok r)) :
    probeHost env h = ⟨[.connAttempt h], some ⟨h, !b, t, r⟩, none⟩ := by
  simp [probeHost, he, Except.map]

lemma probeHost_status_name {env : Env} {h : String} {s : Host}
    (hs : (probeHost env h).status = some s) : s.name = h := by
  rcases he : env h with e | ⟨rec, tl, rp⟩
  · rw [probeHost_connFail he] at hs; cases hs
  · rcases rec with e | b <;> rcases tl with e' | t <;> rcases rp with e'' | r <;>
      simp [probeHost, he, Except.map] at hs
    rw [← hs]

lemma probeHost_attempts (env : Env) (h : String) :
    connAttemptsOf (probeHost env h).events = [h] := by
  rcases he : env h with e | ⟨rec, tl, rp⟩
  · rw [probeHost_connFail he]; rfl
  · rcases rec with e | b <;> rcases tl with e' | t <;> rcases rp with e'' | r <;>
      simp [probeHost, he, Except.map, connAttemptsOf]

lemma probeHost_lines_no_row (env : Env) (h : String) {l : OutLine}
    (hl : l ∈ linesOf (probeHost env h).events) : isRow l = false := by
  rcases he : env h with e | ⟨rec, tl, rp⟩
  · rw [probeHost_connFail he] at hl
    simp [linesOf] at hl
    rcases hl with hl | hl <;> subst hl <;> rfl
  · rcases rec with e | b <;> rcases tl with e' | t <;> rcases rp with e'' | r <;>
      rw [probeHost] at hl <;> rw [he] at hl <;> simp [Except.map, linesOf] at hl

lemma probeHost_diagNames (env : Env) (h : String) :
    (linesOf (probeHost env h).events).filterMap connDiagName? =
      if isConnFail (env h) then [h] else [] := by
  rcases he : env h with e | ⟨rec, tl, rp⟩
  · rw [probeHost_connFail he]; simp [he, isConnFail, linesOf, connDiagName?]
  · rcases rec with e | b <;> rcases tl with e' | t <;> rcases rp with e'' | r <;>
      simp [probeHost, he, Except.map, isConnFail, linesOf]

lemma probeHost_no_panic_of_connFail {env : Env} {h e} (he : env h = .connFail e) :
    (probeHost env h).panic = none := by
  rw [probeHost_connFail he]

lemma collectLoop_nil (env : Env) : collectLoop env [] = ([], [], none) := rfl

lemma collectLoop_err (env : Env) (e : String) (rest : List (Except String String)) :
    collectLoop env (.error e :: rest) = ([], [], some (.lineDecode e)) := rfl

lemma collectLoop_ok_panic {env : Env} {h p} (rest : List (Except String String))
    (hp : (probeHost env h).panic = some p) :
    collectLoop env (.ok h :: rest) = ((probeHost env h).events, [], some p) := by
  simp [collectLoop, hp]

lemma collectLoop_ok_cont {env : Env} {h} (rest : List (Except String String))
    (hp : (probeHost env h).panic = none) :
    collectLoop env (.ok h :: rest) =
      ((probeHost env h).events ++ (collectLoop env rest).1,
       (probeHost env h).status.toList ++ (collectLoop env rest).2.1,
       (collectLoop env rest).2.2) := by
  rcases hrest : collectLoop env rest with ⟨evs, sts, p⟩
  simp [collectLoop, hp, hrest]

lemma collect_append {env : Env} (pre : List String)
    (items : List (Except String String))
    (hnp : ∀ h ∈ pre, (probeHost env h).panic = none) :
    collectLoop env (pre.map .ok ++ items) =
      (eventsFor env pre ++ (collectLoop env items).1,
       pre.filterMap (fun h => (probeHost env h).status) ++ (collectLoop env items).2.1,
       (collectLoop env items).2.2) := by
  induction pre with
  | nil => simp [eventsFor]
  | cons h t ih =>
      have hph : (probeHost env h).panic = none := hnp h (by simp)
      have iht := ih (fun x hx => hnp x (by simp [hx]))
      simp only [List.map_cons, List.cons_append]
      rw [collectLoop_ok_cont _ hph, iht]
      cases hst : (probeHost env h).status <;>
        simp [eventsFor, hst, List.filterMap_cons, Option.toList]

lemma collect_no_panic {env : Env} (hosts : List String)
    (hnp : ∀ h ∈ hosts, (probeHost env h).panic = none) :
    collectLoop env (hosts.map .ok) =
      (eventsFor env hosts,
       hosts.filterMap (fun h => (probeHost env h).status), none) := by
  have := collect_append hosts [] hnp
  simpa [collectLoop_nil] using this

lemma runMain_open_err (e : String) (items : List (Except String String)) (env : Env) :
    runMain (.error e) items env = .panicked [] (.fileOpen e) := rfl

lemma runMain_ok_panic {env : Env} {items p}
    (hp : (collectLoop env items).2.2 = some p) :
    runMain (.ok ()) items env = .panicked (collectLoop env items).1 p := by
  rcases hc : collectLoop env items with ⟨evs, sts, q⟩
  rw [hc] at hp; simp at hp; subst hp
  simp [runMain, hc]

lemma runMain_ok_fin {env : Env} {items}
    (hp : (collectLoop env items).2.2 = none) :
    runMain (.ok ()) items env =
      .finished ((collectLoop env items).1 ++
        ((collectLoop env items).2.1).map (fun s => .line (rowOf s))) := by
  rcases hc : collectLoop env items with ⟨evs, sts, q⟩
  rw [hc] at hp; simp at hp; subst hp
  simp [runMain, hc]

lemma linesOf_append (a b : List Event) : linesOf (a ++ b) = linesOf a ++ linesOf b :=
  List.filterMap_append _ _ _

lemma linesOf_rows (sts : List Host) :
    linesOf (sts.map fun s => .line (rowOf s)) = sts.map rowOf := by
  induction sts with
  | nil => rfl
  | cons s t ih => simp only [List.map_cons, linesOf, List.filterMap_cons] at ih ⊢; rw [ih]

lemma connAttemptsOf_append (a b : List Event) :
    connAttemptsOf (a ++ b) = connAttemptsOf a ++ connAttemptsOf b :=
  List.filterMap_append _ _ _

lemma connAttemptsOf_rows (sts : List Host) :
    connAttemptsOf (sts.map fun s => .line (rowOf s)) = [] := by
  induction sts with
  | nil => rfl
  | cons s t ih => simp only [List.map_cons, connAttemptsOf, List.filterMap_cons] at ih ⊢; rw [ih]

lemma probeHost_lines_cases (env : Env) (h : String) :
    linesOf (probeHost env h).events =
      (match env h with
        | .connFail e => [.connErrHeader h, .connErrDetail e]
        | .connOk _ _ _ => []) := by
  rcases he : env h with e | ⟨rec, tl, rp⟩
  · rw [probeHost_connFail he]; rfl
  · rcases rec with e | b <;> rcases tl with e' | t <;> rcases rp with e'' | r <;>
      simp [probeHost, he, Except.map, linesOf]

lemma eventsFor_lines_no_row (env : Env) (hosts : List String) {l : OutLine}
    (hl : l ∈ linesOf (eventsFor env hosts)) : isRow l = false := by
  induction hosts with
  | nil => simp [eventsFor, linesOf] at hl
  | cons h t ih =>
      rw [eventsFor, linesOf_append] at hl
      rcases List.mem_append.mp hl with h1 | h2
      · exact probeHost_lines_no_row env h h1
      · exact ih h2

lemma collect_lines_no_row (env : Env) (items : List (Except String String)) {l : OutLine}
    (hl : l ∈ linesOf (collectLoop env items).1) : isRow l = false := by
  induction items with
  | nil => simp [collectLoop_nil, linesOf] at hl
  | cons it rest ih =>
      cases it with
      | error e => rw [collectLoop_err] at hl; simp [linesOf] at hl
      | ok h =>
          cases hp : (probeHost env h).panic with
          | some p =>
              rw [collectLoop_ok_panic _ hp] at hl
              exact probeHost_lines_no_row env h hl
          | none =>
              rw [collectLoop_ok_cont _ hp] at hl
              rw [linesOf_append] at hl
              rcases List.mem_append.mp hl with h1 | h2
              · exact probeHost_lines_no_row env h h1
              · exact ih h2

lemma rowsOfTrace_collect (env : Env) (items : List (Except String String)) :
    rowsOfTrace (collectLoop env items).1 = [] := by
  rw [rowsOfTrace, List.filter_eq_nil_iff]
  intro l hl
  simp [collect_lines_no_row env items hl]

lemma collect_sts_length (env : Env) (items : List (Except String String)) :
    (collectLoop env items).2.1.length ≤ items.length := by
  induction items with
  | nil => simp [collectLoop_nil]
  | cons it rest ih =>
      cases it with
      | error e => simp [collectLoop_err]
      | ok h =>
          cases hp : (probeHost env h).panic with
          | some p => simp [collectLoop_ok_panic _ hp]
          | none =>
              rw [collectLoop_ok_cont _ hp]
              cases hst : (probeHost env h).status <;>
                simp [hst, Option.toList, List.length_append] <;> omega

lemma collect_sts_names (env : Env) (hosts : List String) {s : Host}
    (hs : s ∈ (collectLoop env (hosts.map .ok)).2.1) : s.name ∈ hosts := by
  induction hosts with
  | nil => simp [collectLoop_nil] at hs
  | cons h t ih =>
      rw [List.map_cons] at hs
      cases hp : (probeHost env h).panic with
      | some p => rw [collectLoop_ok_panic _ hp] at hs; simp at hs
      | none =>
          rw [collectLoop_ok_cont _ hp] at hs
          rcases List.mem_append.mp hs with h1 | h2
          · cases hst : (probeHost env h).status with
            | none => rw [hst] at h1; simp [Option.toList] at h1
            | some s' =>
                rw [hst] at h1
                simp [Option.toList] at h1
                subst h1
                rw [probeHost_status_name hst]
                exact List.mem_cons_self h t
          · exact List.mem_cons_of_mem _ (ih h2)

lemma eventsFor_diagNames (env : Env) (hosts : List String) :
    (linesOf (eventsFor env hosts)).filterMap connDiagName? =
      hosts.filter (fun h => isConnFail (env h)) := by
  induction hosts with
  | nil => rfl
  | cons h t ih =>
      rw [eventsFor, linesOf_append, List.filterMap_append, ih,
        probeHost_lines_cases, List.filter_cons]
      rcases he : env h with e | ⟨rec, tl, rp⟩ <;>
        simp [he, isConnFail, connDiagName?]

lemma eventsFor_attempts (env : Env) (hosts : List String) :
    connAttemptsOf (eventsFor env hosts) = hosts := by
  induction hosts with
  | nil => rfl
  | cons h t ih =>
      rw [eventsFor, connAttemptsOf_append, ih, probeHost_attempts]
      rfl

lemma isRowEvent_line (l : OutLine) : isRowEvent (.line l) = isRow l := by
  cases l <;> rfl

lemma isRow_rowOf (s : Host) : isRow (rowOf s) = true := rfl

lemma probeHost_events_no_row (env : Env) (h : String) {ev : Event}
    (hev : ev ∈ (probeHost env h).events) : isRowEvent ev = false := by
  rcases he : env h with e | ⟨rec, tl, rp⟩
  · rw [probeHost_connFail he] at hev
    simp at hev
    rcases hev with h1 | h1 | h1 <;> subst h1 <;> rfl
  · rcases rec with e | b <;> rcases tl with e' | t <;> rcases rp with e'' | r <;>
      simp [probeHost, he, Except.map] at hev <;> subst hev <;> rfl

lemma collect_events_no_row (env : Env) (items : List (Except String String)) {ev : Event}
    (hev : ev ∈ (collectLoop env items).1) : isRowEvent ev = false := by
  induction items with
  | nil => simp [collectLoop_nil] at hev
  | cons it rest ih =>
      cases it with
      | error e => rw [collectLoop_err] at hev; simp at hev
      | ok h =>
          cases hp : (probeHost env h).panic with
          | some p =>
              rw [collectLoop_ok_panic _ hp] at hev
              exact probeHost_events_no_row env h hev
          | none =>
              rw [collectLoop_ok_cont _ hp] at hev
              rcases List.mem_append.mp hev with h1 | h2
              · exact probeHost_events_no_row env h h1
              · exact ih h2

lemma rowsOfTrace_append (a b : List Event) :
    rowsOfTrace (a ++ b) = rowsOfTrace a ++ rowsOfTrace b := by
  rw [rowsOfTrace, linesOf_append, List.filter_append]; rfl

lemma rowsOfTrace_eventsFor (env : Env) (hosts : List String) :
    rowsOfTrace (eventsFor env hosts) = [] := by
  rw [rowsOfTrace, List.filter_eq_nil_iff]
  intro l hl
  simp [eventsFor_lines_no_row env hosts hl]

lemma rowsOfTrace_rows (sts : List Host) :
    rowsOfTrace (sts.map fun s => .line (rowOf s)) = sts.map rowOf := by
  rw [rowsOfTrace, linesOf_rows, List.filter_eq_self.mpr]
  intro a ha
  rcases List.mem_map.mp ha with ⟨s, _, hs⟩
  rw [← hs]; rfl

/-- Rows of a clean (panic-free) run: one per host whose probe produced a
status, in input order. -/
lemma rows_run_no_panic (hosts : List String) (env : Env)
    (hnp : ∀ h ∈ hosts, (probeHost env h).panic = none) :
    rowsOf (runOnHosts hosts env) =
      (hosts.filterMap fun h => (probeHost env h).status).map rowOf := by
  have hc := collect_no_panic hosts hnp
  rw [runOnHosts, runMain_ok_fin (by rw [hc]), rowsOf, traceOf, rowsOfTrace_append, hc,
    rowsOfTrace_eventsFor, rowsOfTrace_rows, List.nil_append]

/-- Connection attempts of a clean run: every input host, in order. -/
lemma attempts_run_no_panic (hosts : List String) (env : Env)
    (hnp : ∀ h ∈ hosts, (probeHost env h).panic = none) :
    connAttemptsOf (traceOf (runOnHosts hosts env)) = hosts := by
  have hc := collect_no_panic hosts hnp
  rw [runOnHosts, runMain_ok_fin (by rw [hc]), traceOf, connAttemptsOf_append, hc,
    eventsFor_attempts, connAttemptsOf_rows, List.append_nil]

lemma probeHost_query_fail {env : Env} {h : String} {rec : Except String Bool}
    {tl : Except String Int} {rp : Except String Bool}
    (hconn : env h = .connOk rec tl rp)
    (hfail : (∃ e, rec = .error e) ∨ (∃ e, tl = .error e) ∨ (∃ e, rp = .error e)) :
    (probeHost env h).status = none ∧
    (probeHost env h).events = [.connAttempt h] ∧
    ∃ e, (probeHost env h).panic = some (.queryFail e) := by
  rcases rec with e | b <;> rcases tl with e' | t <;> rcases rp with e'' | r <;>
    simp [probeHost, hconn, Except.map] at hfail ⊢

/-- A clean run printed as events: all probe events, then all rows. -/
lemma run_no_panic_eq (hosts : List String) (env : Env)
    (hnp : ∀ h ∈ hosts, (probeHost env h).panic = none) :
    runOnHosts hosts env = .finished (eventsFor env hosts ++
      ((hosts.filterMap fun h => (probeHost env h).status).map
        fun s => .line (rowOf s))) := by
  have hc := collect_no_panic hosts hnp
  rw [runOnHosts, runMain_ok_fin (by rw [hc]), hc]

lemma rows_diagNames (sts : List Host) :
    (sts.map rowOf).filterMap connDiagName? = [] := by
  induction sts with
  | nil => rfl
  | cons s t ih => simp [List.filterMap_cons, connDiagName?, rowOf, ih]

lemma mem_detail_of_connFail {env : Env} {h e : String} (hosts : List String)
    (hmem : h ∈ hosts) (he : env h = .connFail e) :
    OutLine.connErrDetail e ∈ linesOf (eventsFor env hosts) := by
  induction hosts with
  | nil => cases hmem
  | cons x t ih =>
      rw [eventsFor, linesOf_append, List.mem_append]
      rcases List.mem_cons.mp hmem with h1 | h2
      · subst h1
        left
        rw [probeHost_lines_cases, he]
        simp
      · right
        exact ih h2

lemma filterMap_filter_ne {α β : Type} [DecidableEq α] (g : α → Option β)
    (l : List α) (a : α) (ha : g a = none) :
    l.filterMap g = (l.filter fun x => x ≠ a).filterMap g := by
  induction l with
  | nil => rfl
  | cons x t ih =>
      by_cases hx : x = a
      · subst hx
        simp [List.filter_cons, List.filterMap_cons, ha, ih]
      · simp [List.filter_cons, List.filterMap_cons, hx, ih]

lemma rowName?_none_of_not_row {l : OutLine} (hl : isRow l = false) :
    rowName? l = none := by
  cases l <;> first | rfl | cases hl

lemma eventsFor_rowNames (env : Env) (hosts : List String) :
    (linesOf (eventsFor env hosts)).filterMap rowName? = [] := by
  rw [List.filterMap_eq_nil_iff]
  intro l hl
  exact rowName?_none_of_not_row (eventsFor_lines_no_row env hosts hl)

lemma rows_rowNames (sts : List Host) :
    (sts.map rowOf).filterMap rowName? = sts.map fun s => s.name := by
  induction sts with
  | nil => rfl
  | cons s t ih => simp [List.filterMap_cons, rowOf, rowName?, ih]

lemma sts_names_filter (env : Env) (hosts : List String) :
    ((hosts.filterMap fun h => (probeHost env h).status).map fun s => s.name) =
      hosts.filter fun h => ((probeHost env h).status).isSome := by
  induction hosts with
  | nil => rfl
  | cons h t ih =>
      rw [List.filterMap_cons, List.filter_cons]
      cases hst : (probeHost env h).status with
      | none => simp [hst, ih]
      | some s => simp [hst, ih, probeHost_status_name hst]

lemma eventsFor_lines_shape (env : Env) (hosts : List String) {l : OutLine}
    (hl : l ∈ linesOf (eventsFor env hosts)) :
    (∃ h', l = .connErrHeader h') ∨ ∃ e', l = .connErrDetail e' := by
  induction hosts with
  | nil => simp [eventsFor, linesOf] at hl
  | cons x t ih =>
      rw [eventsFor, linesOf_append] at hl
      rcases List.mem_append.mp hl with h1 | h2
      · rw [probeHost_lines_cases] at h1
        rcases he : env x with e | ⟨rec, tl, rp⟩ <;> rw [he] at h1 <;> simp at h1
        rcases h1 with h1 | h1
        · exact Or.inl ⟨x, h1⟩
        · exact Or.inr ⟨e, h1⟩
      · exact ih h2

lemma stripCR_eq_self {cs : List Char} (h : cs.getLast? ≠ some '\r') :
    stripCR cs = cs := by
  rw [stripCR, if_neg h]

lemma mk_data (s : String) : String.mk s.data = s := rfl

lemma splitLinesAux_line (l rest buf : List Char) (hl : '\n' ∉ l) :
    splitLinesAux (l ++ '\n' :: rest) buf =
      String.mk (stripCR (buf ++ l)) :: splitLinesAux rest [] := by
  induction l generalizing buf with
  | nil => simp [splitLinesAux]
  | cons c cs ih =>
      have hc : c ≠ '\n' := fun hcc => hl (hcc ▸ List.mem_cons_self _ _)
      have hcs : '\n' ∉ cs := fun hm => hl (List.mem_cons_of_mem _ hm)
      rw [List.cons_append, splitLinesAux, if_neg hc, ih (buf ++ [c]) hcs]
      simp

/-- Round trip of the loader: a newline-terminated file whose lines are
free of `\n` and do not end in `\r` is read back as exactly those lines,
in order. -/
lemma rustLines_encode (ls : List String)
    (hl : ∀ l ∈ ls, '\n' ∉ l.data ∧ l.data.getLast? ≠ some '\r') :
    rustLines (encodeFile ls) = ls := by
  induction ls with
  | nil => rfl
  | cons l ls ih =>
      obtain ⟨h1, h2⟩ := hl l (List.mem_cons_self _ _)
      rw [rustLines, encodeFile, splitLinesAux_line _ _ _ h1, List.nil_append,
        stripCR_eq_self h2, mk_data]
      exact congrArg _ (ih fun x hx => hl x (List.mem_cons_of_mem _ hx))

/-! The claims. -/

/-- C1: for every input host list and every outcome of the per-host probes,
the reporter prints at most as many rows as there are input hosts, and the
host name in every printed row was present in the input host list. -/
theorem C1_rows_bounded_and_from_input (hosts : List String) (env : Env) :
    (rowsOf (runOnHosts hosts env)).length ≤ hosts.length ∧
    ∀ n p t r, OutLine.row n p t r ∈ linesOf (traceOf (runOnHosts hosts env)) →
      n ∈ hosts := by
  rw [runOnHosts]
  cases hp : (collectLoop env (hosts.map .ok)).2.2 with
  | some p =>
      rw [runMain_ok_panic hp]
      constructor
      · rw [rowsOf, traceOf, rowsOfTrace_collect]
        simp
      · intro n pr t r hmem
        have := collect_lines_no_row env (hosts.map .ok) hmem
        simp [isRow] at this
  | none =>
      rw [runMain_ok_fin hp]
      constructor
      · rw [rowsOf, traceOf, rowsOfTrace_append, rowsOfTrace_collect, rowsOfTrace_rows,
          List.nil_append, List.length_map]
        calc (collectLoop env (hosts.map Except.ok)).2.1.length
            ≤ ((hosts.map Except.ok : List (Except String String))).length :=
              collect_sts_length env _
          _ = hosts.length := List.length_map _ _
      · intro n pr t r hmem
        rw [traceOf, linesOf_append, linesOf_rows] at hmem
        rcases List.mem_append.mp hmem with h1 | h2
        · have := collect_lines_no_row env (hosts.map .ok) h1
          simp [isRow] at this
        · rcases List.mem_map.mp h2 with ⟨s, hs, hrow⟩
          have hname : s.name = n := by
            rw [rowOf] at hrow
            cases hrow
            rfl
          rw [← hname]
          exact collect_sts_names env hosts hs

/-- Witness for C1 on the spec's three-host scenario. -/
theorem C1_witness :
    (rowsOf (runOnHosts ["db-a", "db-b", "db-c"] envScenario)).length ≤
      (["db-a", "db-b", "db-c"] : List String).length ∧
    ∀ n p t r, OutLine.row n p t r ∈
        linesOf (traceOf (runOnHosts ["db-a", "db-b", "db-c"] envScenario)) →
      n ∈ ["db-a", "db-b", "db-c"] :=
  C1_rows_bounded_and_from_input ["db-a", "db-b", "db-c"] envScenario

/-- C2: a host whose connection fails is logged (exactly one header
diagnostic naming it, and the underlying error text is printed), gets no
row, and does not disturb the rows of the other hosts; and when every host
is unreachable the run still finishes normally with zero rows. -/
theorem C2_conn_failure_recoverable :
    (∀ (hosts : List String) (env : Env) (h e : String),
      hosts.count h = 1 → env h = .connFail e →
      (∀ h' ∈ hosts, (probeHost env h').panic = none) →
      ((linesOf (traceOf (runOnHosts hosts env))).filterMap connDiagName?).count h = 1 ∧
      OutLine.connErrDetail e ∈ linesOf (traceOf (runOnHosts hosts env)) ∧
      (∀ p t r, OutLine.row h p t r ∉ linesOf (traceOf (runOnHosts hosts env))) ∧
      rowsOf (runOnHosts hosts env) =
        rowsOf (runOnHosts (hosts.filter fun x => x ≠ h) env)) ∧
    (∀ (hosts : List String) (env : Env),
      (∀ h ∈ hosts, ∃ e, env h = .connFail e) →
      ∃ tr, runOnHosts hosts env = .finished tr ∧ rowsOfTrace tr = []) := by
  constructor
  · intro hosts env h e hcount he hnp
    have hstnone : (probeHost env h).status = none := by
      rw [probeHost_connFail he]
    have hmem : h ∈ hosts := List.count_pos_iff.mp (by omega)
    have hrun := run_no_panic_eq hosts env hnp
    refine ⟨?_, ?_, ?_, ?_⟩
    · rw [hrun, traceOf, linesOf_append, linesOf_rows, List.filterMap_append,
        eventsFor_diagNames, rows_diagNames, List.append_nil,
        List.count_filter (by simp [he, isConnFail])]
      exact hcount
    · rw [hrun, traceOf, linesOf_append]
      exact List.mem_append.mpr (Or.inl (mem_detail_of_connFail hosts hmem he))
    · intro p t r hrow
      rw [hrun, traceOf, linesOf_append, linesOf_rows] at hrow
      rcases List.mem_append.mp hrow with h1 | h2
      · have := eventsFor_lines_no_row env hosts h1
        simp [isRow] at this
      · rcases List.mem_map.mp h2 with ⟨s, hs, hrowEq⟩
        rcases List.mem_filterMap.mp hs with ⟨x, hx, hsx⟩
        have hxname : s.name = x := probeHost_status_name hsx
        have hnameh : s.name = h := by
          rw [rowOf] at hrowEq
          cases hrowEq
          rfl
        rw [hnameh] at hxname
        rw [← hxname] at hsx
        rw [hstnone] at hsx
        cases hsx
    · have hnp' : ∀ h' ∈ hosts.filter (fun x => x ≠ h), (probeHost env h').panic = none :=
        fun h' hh' => hnp h' (List.mem_of_mem_filter hh')
      rw [rows_run_no_panic hosts env hnp, rows_run_no_panic _ env hnp',
        filterMap_filter_ne (fun h' => (probeHost env h').status) hosts h hstnone]
  · intro hosts env hfail
    have hnp : ∀ h ∈ hosts, (probeHost env h).panic = none := by
      intro h hh
      obtain ⟨e, he⟩ := hfail h hh
      exact probeHost_no_panic_of_connFail he
    refine ⟨_, run_no_panic_eq hosts env hnp, ?_⟩
    have hsts : (hosts.filterMap fun h => (probeHost env h).status) = [] := by
      rw [List.filterMap_eq_nil_iff]
      intro h hh
      obtain ⟨e, he⟩ := hfail h hh
      rw [probeHost_connFail he]
    rw [hsts, List.map_nil, List.append_nil, rowsOfTrace_eventsFor]

/-- Witness for C2: the spec's three-host scenario with `db-b` refusing
connections, and a two-host fully unreachable run. -/
theorem C2_witness :
    (((linesOf (traceOf (runOnHosts ["db-a", "db-b", "db-c"] envScenario))).filterMap
        connDiagName?).count "db-b" = 1 ∧
      OutLine.connErrDetail "connection refused" ∈
        linesOf (traceOf (runOnHosts ["db-a", "db-b", "db-c"] envScenario)) ∧
      (∀ p t r, OutLine.row "db-b" p t r ∉
        linesOf (traceOf (runOnHosts ["db-a", "db-b", "db-c"] envScenario))) ∧
      rowsOf (runOnHosts ["db-a", "db-b", "db-c"] envScenario) =
        rowsOf (runOnHosts (["db-a", "db-b", "db-c"].filter fun x => x ≠ "db-b")
          envScenario)) ∧
    ∃ tr, runOnHosts ["db-a", "db-b"] allRefused = .finished tr ∧ rowsOfTrace tr = [] :=
  ⟨C2_conn_failure_recoverable.1 ["db-a", "db-b", "db-c"] envScenario "db-b"
      "connection refused" (by decide) (by decide) (by decide),
    C2_conn_failure_recoverable.2 ["db-a", "db-b"] allRefused
      fun _ _ => ⟨"connection refused", rfl⟩⟩

/-- C3: if a host's connection succeeds but any of the three status
queries fails, the whole process aborts with the query-failure panic right
after that host's probe (hosts after it are never reached), no row is ever
printed, and no `Host` record is constructed from the partially failed
query set. -/
theorem C3_query_failure_aborts (env : Env) (h : String)
    (rec : Except String Bool) (tl : Except String Int) (rp : Except String Bool)
    (pre post : List String)
    (hconn : env h = .connOk rec tl rp)
    (hfail : (∃ e, rec = .error e) ∨ (∃ e, tl = .error e) ∨ (∃ e, rp = .error e))
    (hpre : ∀ h' ∈ pre, (probeHost env h').panic = none) :
    (probeHost env h).status = none ∧
    ∃ e, runOnHosts (pre ++ h :: post) env =
        .panicked (eventsFor env pre ++ [.connAttempt h]) (.queryFail e) ∧
      rowsOf (runOnHosts (pre ++ h :: post) env) = [] := by
  obtain ⟨hst, hev, e, hpq⟩ := probeHost_query_fail hconn hfail
  have hc : collectLoop env ((pre ++ h :: post).map .ok) =
      (eventsFor env pre ++ (probeHost env h).events,
       pre.filterMap (fun h' => (probeHost env h').status) ++ [],
       some (.queryFail e)) := by
    rw [List.map_append, List.map_cons, collect_append pre _ hpre,
      collectLoop_ok_panic _ hpq]
  have hrun : runOnHosts (pre ++ h :: post) env =
      .panicked (eventsFor env pre ++ [.connAttempt h]) (.queryFail e) := by
    rw [runOnHosts, runMain_ok_panic (by rw [hc]), hc, hev]
  refine ⟨hst, e, hrun, ?_⟩
  rw [hrun, rowsOf, traceOf, rowsOfTrace_append, rowsOfTrace_eventsFor]
  rfl

/-- Witness for C3: a one-host run whose timeline query fails panics with
the query error, attempts the connection, and prints no row. -/
theorem C3_witness :
    (probeHost envQueryFail "db-a").status = none ∧
    ∃ e, runOnHosts ["db-a"] envQueryFail =
        .panicked (eventsFor envQueryFail [] ++ [.connAttempt "db-a"]) (.queryFail e) ∧
      rowsOf (runOnHosts ["db-a"] envQueryFail) = [] :=
  C3_query_failure_aborts envQueryFail "db-a" (.ok false) (.error "query failed")
    (.ok false) [] [] rfl (Or.inr (Or.inl ⟨"query failed", rfl⟩)) (by simp)

/-- C4: in a panic-free run, the printed rows are exactly the statuses of
the successfully probed hosts, in the order those hosts appear in the
input list. -/
theorem C4_rows_in_input_order (hosts : List String) (env : Env)
    (hnp : ∀ h ∈ hosts, (probeHost env h).panic = none) :
    rowsOf (runOnHosts hosts env) =
      (hosts.filterMap fun h => (probeHost env h).status).map rowOf :=
  rows_run_no_panic hosts env hnp

/-- Witness for C4 on the spec's three-host scenario. -/
theorem C4_witness :
    rowsOf (runOnHosts ["db-a", "db-b", "db-c"] envScenario) =
      (["db-a", "db-b", "db-c"].filterMap fun h =>
        (probeHost envScenario h).status).map rowOf :=
  C4_rows_in_input_order ["db-a", "db-b", "db-c"] envScenario (by decide)

/-- C5: for a successfully probed host the `is_primary` field of its
`Host` record is the boolean negation of the value the server returned for
`pg_is_in_recovery`, and the other two fields are the query answers. -/
theorem C5_is_primary_negates_recovery (env : Env) (h : String) (b : Bool)
    (t : Int) (r : Bool)
    (hconn : env h = .connOk (.ok b) (.ok t) (.ok r)) :
    (probeHost env h).status = some ⟨h, !b, t, r⟩ :=
  by rw [probeHost_all_ok hconn]

/-- Witness for C5 at a concrete environment: the server reports
`pg_is_in_recovery = false` and the collected row says primary. -/
theorem C5_witness :
    (probeHost envPrimary "db-a").status = some ⟨"db-a", true, 7, true⟩ :=
  C5_is_primary_negates_recovery envPrimary "db-a" false 7 true rfl

/-- Counterexample to C6 as stated: the loader does not filter blank
lines — the file `"a\n\nb"` yields the empty string as its second entry,
and the run then attempts a connection to the empty hostname. -/
theorem C6_counterexample :
    rustLines ("a\n\nb".data) = ["a", "", "b"] ∧
    "" ∈ rustLines ("a\n\nb".data) ∧
    Event.connAttempt "" ∈ traceOf (runOnFile ("a\n\nb".data) allRefused) := by
  decide

/-- C6 amended: the loader returns the file's lines in order, one entry
per line with the trailing newline stripped, but keeps empty lines, and
every entry — the empty hostname included — is then probed. -/
theorem C6_amended_loader (ls : List String) (env : Env)
    (hl : ∀ l ∈ ls, '\n' ∉ l.data ∧ l.data.getLast? ≠ some '\r')
    (hnp : ∀ h ∈ ls, (probeHost env h).panic = none) :
    rustLines (encodeFile ls) = ls ∧
    connAttemptsOf (traceOf (runOnFile (encodeFile ls) env)) = ls := by
  have hrt := rustLines_encode ls hl
  refine ⟨hrt, ?_⟩
  rw [runOnFile, hrt]
  exact attempts_run_no_panic ls env hnp

/-- Witness for C6 amended: a file with a blank middle line, all hosts
refusing; the blank line becomes a probe of the empty hostname. -/
theorem C6_witness :
    rustLines (encodeFile ["a", "", "b"]) = ["a", "", "b"] ∧
    connAttemptsOf (traceOf (runOnFile (encodeFile ["a", "", "b"]) allRefused)) =
      ["a", "", "b"] :=
  C6_amended_loader ["a", "", "b"] allRefused (by decide) (by decide)

/-- Counterexample to C7 as stated: with a first host line that decodes
and a second line that does not, the run panics on the decode error only
after attempting (and here failing) a connection to the first host, so the
fatal termination does not happen before any host is probed. -/
theorem C7_counterexample :
    runMain (.ok ()) [.ok "db-a", badLine] allRefused =
      .panicked [.connAttempt "db-a", .line (.connErrHeader "db-a"),
          .line (.connErrDetail "connection refused")]
        (.lineDecode "stream did not contain valid UTF-8") ∧
    Event.connAttempt "db-a" ∈
      traceOf (runMain (.ok ()) [.ok "db-a", badLine] allRefused) := by
  decide

/-- C7 amended: a hosts file that cannot be opened aborts the run before
anything is probed (empty trace); a line that cannot be decoded aborts the
run when the loop reaches it, by which time every earlier host has already
been probed. -/
theorem C7_amended_fatal_read (eo ed : String) (items : List (Except String String))
    (env : Env) (pre : List String) (rest : List (Except String String))
    (hnp : ∀ h ∈ pre, (probeHost env h).panic = none) :
    runMain (.error eo) items env = .panicked [] (.fileOpen eo) ∧
    runMain (.ok ()) (pre.map .ok ++ .error ed :: rest) env =
      .panicked (eventsFor env pre) (.lineDecode ed) ∧
    connAttemptsOf (eventsFor env pre) = pre := by
  have hc : collectLoop env (pre.map .ok ++ .error ed :: rest) =
      (eventsFor env pre ++ [],
       pre.filterMap (fun h' => (probeHost env h').status) ++ [],
       some (.lineDecode ed)) := by
    rw [collect_append pre _ hnp, collectLoop_err]
  refine ⟨rfl, ?_, eventsFor_attempts env pre⟩
  rw [runMain_ok_panic (by rw [hc]), hc, List.append_nil]

/-- Witness for C7 amended: a two-line file whose second line fails to
decode, probed against the all-refusing environment. -/
theorem C7_witness :
    runMain (.error "No such file or directory") [] allRefused =
      .panicked [] (.fileOpen "No such file or directory") ∧
    runMain (.ok ()) (["db-a"].map .ok ++ badLine :: []) allRefused =
      .panicked (eventsFor allRefused ["db-a"])
        (.lineDecode "stream did not contain valid UTF-8") ∧
    connAttemptsOf (eventsFor allRefused ["db-a"]) = ["db-a"] :=
  C7_amended_fatal_read "No such file or directory"
    "stream did not contain valid UTF-8" [] allRefused ["db-a"] [] (by decide)

/-- C8: for a successfully probed host exactly one row line naming it is
printed, that line carries the four `Host` fields in order and renders as
`name, is_primary, timeline_id, replica_attached`, and every line of the
output is either a row or one of the two connection diagnostics (so no
header row exists). -/
theorem C8_row_format (hosts : List String) (env : Env) (h : String)
    (b : Bool) (t : Int) (r : Bool)
    (hcount : hosts.count h = 1)
    (hconn : env h = .connOk (.ok b) (.ok t) (.ok r))
    (hnp : ∀ h' ∈ hosts, (probeHost env h').panic = none) :
    ((linesOf (traceOf (runOnHosts hosts env))).filterMap rowName?).count h = 1 ∧
    OutLine.row h (!b) t r ∈ linesOf (traceOf (runOnHosts hosts env)) ∧
    render (OutLine.row h (!b) t r) =
      h ++ ", " ++ boolStr (!b) ++ ", " ++ toString t ++ ", " ++ boolStr r ∧
    ∀ l ∈ linesOf (traceOf (runOnHosts hosts env)),
      isRow l = true ∨ (∃ h', l = .connErrHeader h') ∨ ∃ e', l = .connErrDetail e' := by
  have hst : (probeHost env h).status = some ⟨h, !b, t, r⟩ := by
    rw [probeHost_all_ok hconn]
  have hmem : h ∈ hosts := List.count_pos_iff.mp (by omega)
  have hrun := run_no_panic_eq hosts env hnp
  refine ⟨?_, ?_, rfl, ?_⟩
  · rw [hrun, traceOf, linesOf_append, linesOf_rows, List.filterMap_append,
      eventsFor_rowNames, rows_rowNames, List.nil_append, sts_names_filter,
      List.count_filter (by simp [hst])]
    exact hcount
  · rw [hrun, traceOf, linesOf_append, linesOf_rows]
    refine List.mem_append.mpr (Or.inr ?_)
    exact List.mem_map.mpr ⟨⟨h, !b, t, r⟩, List.mem_filterMap.mpr ⟨h, hmem, hst⟩, rfl⟩
  · intro l hl
    rw [hrun, traceOf, linesOf_append, linesOf_rows] at hl
    rcases List.mem_append.mp hl with h1 | h2
    · exact Or.inr (eventsFor_lines_shape env hosts h1)
    · rcases List.mem_map.mp h2 with ⟨s, _, hs⟩
      left
      rw [← hs, isRow_rowOf]

/-- Witness for C8 on the spec's scenario, for host `db-a`. -/
theorem C8_witness :
    ((linesOf (traceOf (runOnHosts ["db-a", "db-b", "db-c"] envScenario))).filterMap
        rowName?).count "db-a" = 1 ∧
    OutLine.row "db-a" (!false) 7 true ∈
      linesOf (traceOf (runOnHosts ["db-a", "db-b", "db-c"] envScenario)) ∧
    render (OutLine.row "db-a" (!false) 7 true) =
      "db-a" ++ ", " ++ boolStr (!false) ++ ", " ++ toString (7 : Int) ++ ", " ++
        boolStr true ∧
    ∀ l ∈ linesOf (traceOf (runOnHosts ["db-a", "db-b", "db-c"] envScenario)),
      isRow l = true ∨ (∃ h', l = .connErrHeader h') ∨ ∃ e', l = .connErrDetail e' :=
  C8_row_format ["db-a", "db-b", "db-c"] envScenario "db-a" false 7 true
    (by decide) (by decide) (by decide)

/-- C9: the collector is deterministic in its inputs: with the same items
from the hosts file and environments that answer identically on every host
in the file, the two runs are identical (same trace, same rows, same
termination). -/
theorem C9_deterministic (openRes : Except String Unit)
    (items : List (Except String String)) (env1 env2 : Env)
    (hagree : ∀ h, Except.ok h ∈ items → env1 h = env2 h) :
    runMain openRes items env1 = runMain openRes items env2 := by
  have hc : collectLoop env1 items = collectLoop env2 items := by
    induction items with
    | nil => rfl
    | cons it rest ih =>
        have ih' := ih fun h hm => hagree h (List.mem_cons_of_mem _ hm)
        cases it with
        | error e => rfl
        | ok h =>
            have hph : probeHost env1 h = probeHost env2 h := by
              rw [probeHost, probeHost, hagree h (List.mem_cons_self _ _)]
            simp only [collectLoop, hph, ih']
  cases openRes with
  | error e => rfl
  | ok u => cases u; simp only [runMain, hc]

/-- Witness for C9: `allRefused` and `envOther` differ globally but agree
on the one host in the file, so the runs coincide. -/
theorem C9_witness :
    runMain (.ok ()) [Except.ok "db-a"] allRefused =
      runMain (.ok ()) [Except.ok "db-a"] envOther :=
  C9_deterministic (.ok ()) [Except.ok "db-a"] allRefused envOther
    (by intro h hm; simp at hm; subst hm; decide)

/-- C10: the collection phase completes before reporting: every run's
trace splits into a collection part with no row lines (it holds all
connection attempts and diagnostics) followed by a reporting part of row
lines only, with no connection attempts. -/
theorem C10_collect_before_report (openRes : Except String Unit)
    (items : List (Except String String)) (env : Env) :
    ∃ collection reporting,
      traceOf (runMain openRes items env) = collection ++ reporting ∧
      (∀ ev ∈ collection, isRowEvent ev = false) ∧
      (∀ ev ∈ reporting, isRowEvent ev = true) ∧
      connAttemptsOf reporting = [] := by
  cases openRes with
  | error e =>
      exact ⟨[], [], by rw [runMain_open_err]; rfl, by simp, by simp, rfl⟩
  | ok u =>
      cases u
      cases hp : (collectLoop env items).2.2 with
      | some p =>
          refine ⟨(collectLoop env items).1, [], ?_, ?_, by simp, rfl⟩
          · rw [runMain_ok_panic hp, traceOf, List.append_nil]
          · intro ev hev
            exact collect_events_no_row env items hev
      | none =>
          refine ⟨(collectLoop env items).1,
            ((collectLoop env items).2.1).map (fun s => .line (rowOf s)), ?_, ?_, ?_, ?_⟩
          · rw [runMain_ok_fin hp]; rfl
          · intro ev hev
            exact collect_events_no_row env items hev
          · intro ev hev
            rcases List.mem_map.mp hev with ⟨s, _, hs⟩
            rw [← hs, isRowEvent_line, isRow_rowOf]
          · exact connAttemptsOf_rows _

/-- Witness for C10 on a concrete one-host run. -/
theorem C10_witness :
    ∃ collection reporting,
      traceOf (runMain (.ok ()) [Except.ok "db-a"] envScenario) =
        collection ++ reporting ∧
      (∀ ev ∈ collection, isRowEvent ev = false) ∧
      (∀ ev ∈ reporting, isRowEvent ev = true) ∧
      connAttemptsOf reporting = [] :=
  C10_collect_before_report (.ok ()) [Except.ok "db-a"] envScenario

end TimelineCheck
